import Mathlib

/-!
Verification development for the classroom participation tracker
(participation-request lifecycle, point-award coordinator, realtime fan-out).

The definitions below are a shallow embedding of the TypeScript source:
  * data model        — src/shared/schema.ts
  * ledger store      — src/server/database-storage.ts (DatabaseStorage),
                        cross-checked against the in-memory MemStorage variant
  * route handlers    — src/server/routes.ts
  * broadcast fan-out — src/server/routes.ts (broadcastToAll)
  * client reconnect  — client WebSocketProvider (exponential backoff variant)

Timestamps are modelled by a logical clock carried in the store, incremented on
every row creation, so creation order and timestamp order agree (the source
calls `new Date()` at each insertion, which is non-decreasing).
-/

namespace ClassParticipate

/-- User row (src/shared/schema.ts `users` table). Role is "admin" or "student". -/
structure User where
  id : Nat
  username : String
  password : String
  email : String
  role : String
  name : String
deriving Repr, DecidableEq

/-- ParticipationRequest row (src/shared/schema.ts `participation_requests`).
An OPEN request is one with `active = true`; CLOSED means `active = false`. -/
structure ParticipationRequest where
  id : Nat
  studentId : Nat
  courseId : Nat
  note : Option String
  timestamp : Nat
  active : Bool
deriving Repr, DecidableEq

/-- ParticipationRecord row (src/shared/schema.ts `participation_records`). -/
structure ParticipationRecord where
  id : Nat
  studentId : Nat
  courseId : Nat
  points : Int
  feedback : Option String
  note : Option String
  timestamp : Nat
  hidden : Bool
deriving Repr, DecidableEq

/-- DEFAULT_COURSE.id from src/shared/schema.ts. -/
def DEFAULT_COURSE_ID : Nat := 1

/-- The ledger store: users, requests and records plus the serial counters of
the storage layer, and the logical clock standing for `new Date()`. Lists are
kept in insertion order, matching both SERIAL ids in Postgres and the
insertion-ordered Maps of MemStorage. -/
structure Storage where
  users : List User
  participationRequests : List ParticipationRequest
  participationRecords : List ParticipationRecord
  userCurrentId : Nat
  participationRequestCurrentId : Nat
  participationRecordCurrentId : Nat
  clock : Nat
deriving Repr, DecidableEq

/-- DatabaseStorage.getUser: `SELECT * FROM users WHERE id = $1`, first row. -/
def getUser (s : Storage) (id : Nat) : Option User :=
  s.users.find? (fun u => u.id == id)

/-- DatabaseStorage.getParticipationRequestById: lookup by id. -/
def getParticipationRequestById (s : Storage) (id : Nat) : Option ParticipationRequest :=
  s.participationRequests.find? (fun r => r.id == id)

/-- DatabaseStorage.createParticipationRequest: INSERT with active = true and
timestamp = now, RETURNING the new row. -/
def createParticipationRequest (s : Storage) (studentId : Nat) (note : Option String) :
    Storage × ParticipationRequest :=
  let req : ParticipationRequest :=
    { id := s.participationRequestCurrentId
      studentId := studentId
      courseId := DEFAULT_COURSE_ID
      note := note
      timestamp := s.clock
      active := true }
  ({ s with participationRequests := s.participationRequests ++ [req]
            participationRequestCurrentId := s.participationRequestCurrentId + 1
            clock := s.clock + 1 },
   req)

/-- Ascending timestamp order on requests (SQL `ORDER BY pr.timestamp`). -/
def reqLE (a b : ParticipationRequest) : Prop := a.timestamp ≤ b.timestamp

instance : DecidableRel reqLE :=
  fun a b => inferInstanceAs (Decidable (a.timestamp ≤ b.timestamp))

instance : IsTotal ParticipationRequest reqLE :=
  ⟨fun a b => Nat.le_total a.timestamp b.timestamp⟩

instance : IsTrans ParticipationRequest reqLE :=
  ⟨fun _ _ _ h h' => Nat.le_trans h h'⟩

/-- DatabaseStorage.getActiveParticipationRequests:
`SELECT pr.*, u.name, u.username FROM participation_requests pr JOIN users u
 ON pr.student_id = u.id WHERE pr.active = true ORDER BY pr.timestamp`.
The inner join is the filterMap over `getUser`; rows are returned together
with the joined user. -/
def getActiveParticipationRequests (s : Storage) :
    List (ParticipationRequest × User) :=
  (List.insertionSort reqLE (s.participationRequests.filter (fun r => r.active))).filterMap
    (fun r => (getUser s r.studentId).map (fun u => (r, u)))

/-- DatabaseStorage.deactivateParticipationRequest:
`UPDATE participation_requests SET active = false WHERE id = $1 RETURNING *`.
MemStorage does the same via get / spread-with-active-false / set. -/
def deactivateParticipationRequest (s : Storage) (id : Nat) :
    Storage × Option ParticipationRequest :=
  match s.participationRequests.find? (fun r => r.id == id) with
  | none => (s, none)
  | some r =>
      let updatedList :=
        s.participationRequests.map
          (fun q => if q.id == id then { q with active := false } else q)
      ({ s with participationRequests := updatedList },
       some { r with active := false })

/-- DatabaseStorage.createParticipationRecord: INSERT (hidden takes the column
default `false`), RETURNING the new row. -/
def createParticipationRecord (s : Storage) (studentId : Nat) (points : Int)
    (feedback note : Option String) : Storage × ParticipationRecord :=
  let record : ParticipationRecord :=
    { id := s.participationRecordCurrentId
      studentId := studentId
      courseId := DEFAULT_COURSE_ID
      points := points
      feedback := feedback
      note := note
      timestamp := s.clock
      hidden := false }
  ({ s with participationRecords := s.participationRecords ++ [record]
            participationRecordCurrentId := s.participationRecordCurrentId + 1
            clock := s.clock + 1 },
   record)

/-- Descending timestamp order on records (SQL `ORDER BY timestamp DESC`). -/
def recDescLE (a b : ParticipationRecord) : Prop := b.timestamp ≤ a.timestamp

instance : DecidableRel recDescLE :=
  fun a b => inferInstanceAs (Decidable (b.timestamp ≤ a.timestamp))

instance : IsTotal ParticipationRecord recDescLE :=
  ⟨fun a b => (Nat.le_total b.timestamp a.timestamp)⟩

instance : IsTrans ParticipationRecord recDescLE :=
  ⟨fun _ _ _ h h' => Nat.le_trans h' h⟩

/-- Row shape built by the read projections of DatabaseStorage: both
getAllParticipationRecords and getParticipationRecordsByStudent rebuild each
result object listing id, studentId, courseId, points, feedback, note and
timestamp only — the `hidden` column is omitted. A later read of the absent
property yields undefined, modelled as an Option that the projection always
sets to none. -/
structure ParticipationRecordRow where
  id : Nat
  studentId : Nat
  courseId : Nat
  points : Int
  feedback : Option String
  note : Option String
  timestamp : Nat
  hidden : Option Bool
deriving Repr, DecidableEq

/-- The field-by-field projection of the read queries (hidden omitted). -/
def projectRecordRow (r : ParticipationRecord) : ParticipationRecordRow :=
  { id := r.id, studentId := r.studentId, courseId := r.courseId,
    points := r.points, feedback := r.feedback, note := r.note,
    timestamp := r.timestamp, hidden := none }

/-- DatabaseStorage.getParticipationRecordsByStudent:
`SELECT * FROM participation_records WHERE student_id = $1 ORDER BY timestamp
 DESC`, each row then rebuilt through the projection that drops `hidden`. -/
def getParticipationRecordsByStudent (s : Storage) (studentId : Nat) :
    List ParticipationRecordRow :=
  (List.insertionSort recDescLE
    (s.participationRecords.filter (fun r => r.studentId == studentId))).map
    projectRecordRow

/-- DatabaseStorage.getAllParticipationRecords: join with users, newest first,
each row rebuilt through the projection that drops `hidden`. -/
def getAllParticipationRecords (s : Storage) :
    List (ParticipationRecordRow × User) :=
  (List.insertionSort recDescLE s.participationRecords).filterMap
    (fun r => (getUser s r.studentId).map (fun u => (projectRecordRow r, u)))

/-- DatabaseStorage.getTotalParticipationPointsByStudent:
`SELECT SUM(points) FROM participation_records WHERE student_id = $1`, with
NULL coalesced to 0. MemStorage computes the same with
`reduce((sum, record) => sum + record.points, 0)`. No `hidden` filter appears
in either implementation. -/
def getTotalParticipationPointsByStudent (s : Storage) (studentId : Nat) : Int :=
  (s.participationRecords.filter (fun r => r.studentId == studentId)).foldl
    (fun sum r => sum + r.points) 0

/-- HTTP outcome of a route handler: either a success status with a body or an
error status with the message the handler sends. -/
inductive HttpResult (α : Type) where
  | ok (status : Nat) (body : α)
  | err (status : Nat) (message : String)
deriving Repr, DecidableEq

/-- Realtime events published through broadcastToAll (src/server/routes.ts).
Payloads carry the entity plus, where the source attaches it, the student's
public profile (id, name, username). -/
inductive WsEvent where
  | participationRequest (req : ParticipationRequest)
      (studentId : Nat) (name username : String)
  | participationRequestDeactivated (id : Nat)
  | participationRecordCreated (record : ParticipationRecord)
      (studentId : Nat) (name username : String)
  | participationRecordsDeleted (date : Nat)
deriving Repr, DecidableEq

/-- POST /api/participation-requests (src/server/routes.ts). The caller is the
authenticated user. The Zod parse forces studentId to the session user's id;
the duplicate check scans the joined active-request list for a row whose
attached student has the caller's id. -/
def postParticipationRequest (s : Storage) (u : User) (note : Option String) :
    Storage × List WsEvent × HttpResult ParticipationRequest :=
  if u.role ≠ "student" then
    (s, [], HttpResult.err 403 "Only students can raise hands")
  else if (getActiveParticipationRequests s).any (fun p => p.2.id == u.id) then
    (s, [], HttpResult.err 400 "You already have an active participation request")
  else
    let created := createParticipationRequest s u.id note
    (created.1,
     [WsEvent.participationRequest created.2 u.id u.name u.username],
     HttpResult.ok 201 created.2)

/-- DELETE /api/participation-requests/:id (src/server/routes.ts). 404 when the
id is unknown, 403 when a student tries to close someone else's request;
otherwise the request is deactivated, a participationRequestDeactivated event
is broadcast, and the updated row is returned. -/
def deleteParticipationRequest (s : Storage) (u : User) (requestId : Nat) :
    Storage × List WsEvent × HttpResult (Option ParticipationRequest) :=
  match getParticipationRequestById s requestId with
  | none => (s, [], HttpResult.err 404 "Participation request not found")
  | some request =>
      if u.role = "student" ∧ request.studentId ≠ u.id then
        (s, [], HttpResult.err 403 "Not authorized to deactivate this request")
      else
        let deactivated := deactivateParticipationRequest s requestId
        (deactivated.1,
         [WsEvent.participationRequestDeactivated requestId],
         HttpResult.ok 200 deactivated.2)

/-- A raw points body value (a JSON number, modelled as a rational) is
committed to the store exactly when it is an integer inside the INTEGER
column's range: drizzle-zod versions that attach `.int()` to the column also
attach these int32 bounds, and the Postgres INTEGER column enforces the same
range on insert under every version. -/
def pointsValid (p : ℚ) : Prop :=
  p.den = 1 ∧ -2147483648 ≤ p.num ∧ p.num < 2147483648

instance (p : ℚ) : Decidable (pointsValid p) :=
  inferInstanceAs
    (Decidable (p.den = 1 ∧ -2147483648 ≤ p.num ∧ p.num < 2147483648))

/-- POST /api/participation-records (src/server/routes.ts). The ensureAdmin
middleware runs first. A points value that is not a valid INTEGER fails the
award with no committed record; where exactly it fails is version-dependent
(a drizzle-zod int/range check answers 400 through the ZodError branch, an
older schema lets the value reach Postgres whose INTEGER column errors into
the 500 branch), so the model collapses the two reject paths into one error
reply — no theorem below relies on that reply, only on the store being
unchanged. requestId is extracted from the body before validation; a falsy
value becomes none. After the record is created, a linked request that is
still active is deactivated (best-effort, never failing the award). -/
def postParticipationRecord (s : Storage) (u : User) (studentId : Nat)
    (points : ℚ) (feedback note : Option String) (requestId : Option Nat) :
    Storage × List WsEvent × HttpResult ParticipationRecord :=
  if u.role ≠ "admin" then
    (s, [], HttpResult.err 403 "Forbidden: Admin access required")
  else if ¬ pointsValid points then
    (s, [], HttpResult.err 400 "Points rejected: not a valid INTEGER value")
  else
    match getUser s studentId with
    | none => (s, [], HttpResult.err 400 "Invalid student ID")
    | some student =>
        if student.role ≠ "student" then
          (s, [], HttpResult.err 400 "Invalid student ID")
        else
          let created := createParticipationRecord s studentId points.num feedback note
          let afterClose : Storage × List WsEvent :=
            match requestId with
            | none => (created.1, [])
            | some rid =>
                match getParticipationRequestById created.1 rid with
                | some request =>
                    if request.active then
                      ((deactivateParticipationRequest created.1 rid).1,
                       [WsEvent.participationRequestDeactivated rid])
                    else (created.1, [])
                | none => (created.1, [])
          (afterClose.1,
           afterClose.2 ++
             [WsEvent.participationRecordCreated created.2
                student.id student.name student.username],
           HttpResult.ok 201 created.2)

/-- GET /api/participation-records (src/server/routes.ts), projected onto the
record rows: admins see every record, students only their own; in both
branches the handler runs `records.filter(record => !record.hidden)` unless
showHidden is set. The rows come from the storage projections, which omit the
hidden column, so the read `record.hidden` yields undefined (falsy, modelled
by the none default of the Option). -/
def participationRecordsView (s : Storage) (u : User) (showHidden : Bool) :
    List ParticipationRecordRow :=
  if u.role = "admin" then
    let records := (getAllParticipationRecords s).map Prod.fst
    if showHidden then records
    else records.filter (fun r => !(r.hidden.getD false))
  else
    let records := getParticipationRecordsByStudent s u.id
    if showHidden then records
    else records.filter (fun r => !(r.hidden.getD false))

/-- Modelled from the spec: the visibility-flag update. No route under src/
mutates the `hidden` column (the schema declares it and the GET handlers filter
on it); the spec states records are "immutable once created except for
visibility flag", so the update is modelled as setting exactly that flag on the
addressed record. -/
def setRecordHidden (s : Storage) (id : Nat) (h : Bool) : Storage :=
  let updatedList :=
    s.participationRecords.map
      (fun r => if r.id == id then { r with hidden := h } else r)
  { s with participationRecords := updatedList }

/-- Transport readiness of one server-tracked connection (ws readyState). -/
inductive ReadyState where
  | connecting
  | opened
  | closing
  | closed
deriving Repr, DecidableEq

/-- One connection as the server sees it: the transport state, whether a send
on it throws (modelling a broken socket), how many sends were attempted on it,
and the events actually delivered to it. -/
structure ClientConn where
  userId : Option Nat
  readyState : ReadyState
  sendFails : Bool
  sendAttempts : Nat
  inbox : List WsEvent
deriving Repr, DecidableEq

/-- One `client.send` call wrapped in try/catch: the attempt always counts;
delivery happens unless the socket throws, and a throw is swallowed. -/
def wsSend (c : ClientConn) (e : WsEvent) : ClientConn :=
  if c.sendFails then { c with sendAttempts := c.sendAttempts + 1 }
  else { c with sendAttempts := c.sendAttempts + 1, inbox := c.inbox ++ [e] }

/-- Body of broadcastToAll's forEach for one client (src/server/routes.ts):
send only when readyState is OPEN, with the send failure caught and ignored. -/
def broadcastSendTo (c : ClientConn) (e : WsEvent) : ClientConn :=
  if c.readyState = ReadyState.opened then wsSend c e else c

/-- broadcastToAll (src/server/routes.ts): iterate over every tracked client. -/
def broadcastToAll (conns : List ClientConn) (e : WsEvent) : List ClientConn :=
  conns.map (fun c => broadcastSendTo c e)

/-- INITIAL_RECONNECT_DELAY (client WebSocketProvider), in milliseconds. -/
def INITIAL_RECONNECT_DELAY : ℚ := 1000

/-- MAX_RECONNECT_DELAY (client WebSocketProvider), in milliseconds. -/
def MAX_RECONNECT_DELAY : ℚ := 30000

/-- Client-side reconnect state: the reconnectAttemptsRef counter. -/
structure WsClient where
  reconnectAttempts : Nat
deriving Repr, DecidableEq

/-- The close handler of the backoff WebSocketProvider: read the attempt
counter (post-increment), schedule the reconnect after
min(INITIAL_RECONNECT_DELAY * 1.5 ^ attempt, MAX_RECONNECT_DELAY). Returns the
new state and the scheduled delay. -/
def onCloseEvent (c : WsClient) : WsClient × ℚ :=
  let reconnectAttempt := c.reconnectAttempts
  let reconnectDelay :=
    min (INITIAL_RECONNECT_DELAY * (1.5 : ℚ) ^ reconnectAttempt) MAX_RECONNECT_DELAY
  ({ reconnectAttempts := reconnectAttempt + 1 }, reconnectDelay)

/-- The open handler of the backoff WebSocketProvider resets the counter. -/
def onOpenEvent (_c : WsClient) : WsClient := { reconnectAttempts := 0 }

/-- State after n consecutive failed connections (n close events in a row). -/
def failStreak (c : WsClient) : Nat → WsClient
  | 0 => c
  | n + 1 => (onCloseEvent (failStreak c n)).1

/-- States reachable from s₀ through the three write handlers, each invoked by
some user present in the store (sessions hold users read from the store). -/
inductive Reaches (s₀ : Storage) : Storage → Prop where
  | refl : Reaches s₀ s₀
  | openStep (s : Storage) (u : User) (note : Option String) :
      Reaches s₀ s → u ∈ s.users →
      Reaches s₀ (postParticipationRequest s u note).1
  | closeStep (s : Storage) (u : User) (requestId : Nat) :
      Reaches s₀ s → u ∈ s.users →
      Reaches s₀ (deleteParticipationRequest s u requestId).1
  | awardStep (s : Storage) (u : User) (studentId : Nat) (points : ℚ)
      (feedback note : Option String) (requestId : Option Nat) :
      Reaches s₀ s → u ∈ s.users →
      Reaches s₀ (postParticipationRecord s u studentId points feedback note requestId).1

/-- Number of OPEN requests a given student has in the store. -/
def countOpen (s : Storage) (studentId : Nat) : Nat :=
  (s.participationRequests.filter (fun r => r.active && r.studentId == studentId)).length

/-- The at-most-one-open-request-per-student invariant. -/
def openRequestInvariant (s : Storage) : Prop :=
  ∀ studentId : Nat, countOpen s studentId ≤ 1

/-- A concrete admin user (mirrors the default admin MemStorage seeds). -/
def exAdmin : User :=
  { id := 1, username := "admin", password := "pw", email := "a@x",
    role := "admin", name := "Admin User" }

/-- A concrete student user (mirrors the default student MemStorage seeds). -/
def exStudent : User :=
  { id := 2, username := "student", password := "pw", email := "s@x",
    role := "student", name := "Student User" }

/-- A concrete store holding the two seeded users and nothing else. -/
def exInit : Storage :=
  { users := [exAdmin, exStudent], participationRequests := [],
    participationRecords := [], userCurrentId := 3,
    participationRequestCurrentId := 1, participationRecordCurrentId := 1,
    clock := 0 }

/-- A concrete OPEN request raised by the seeded student. -/
def exOpenReq : ParticipationRequest :=
  { id := 1, studentId := 2, courseId := 1, note := none, timestamp := 0,
    active := true }

/-- The same request, CLOSED. -/
def exClosedReq : ParticipationRequest :=
  { id := 1, studentId := 2, courseId := 1, note := none, timestamp := 0,
    active := false }

/-- Store in which the student has one OPEN request. -/
def exOpenStore : Storage :=
  { exInit with participationRequests := [exOpenReq],
                participationRequestCurrentId := 2, clock := 1 }

/-- Store in which the student's single request is already CLOSED. -/
def exClosedStore : Storage :=
  { exInit with participationRequests := [exClosedReq],
                participationRequestCurrentId := 2, clock := 1 }

/-- A shown record of 2 points for the seeded student. -/
def exShownRecord : ParticipationRecord :=
  { id := 1, studentId := 2, courseId := 1, points := 2, feedback := none,
    note := none, timestamp := 0, hidden := false }

/-- A hidden record of 3 points for the seeded student. -/
def exHiddenRecord : ParticipationRecord :=
  { id := 2, studentId := 2, courseId := 1, points := 3, feedback := none,
    note := none, timestamp := 1, hidden := true }

/-- Store with one shown and one hidden record for the seeded student. -/
def exRecordsStore : Storage :=
  { exInit with participationRecords := [exShownRecord, exHiddenRecord],
                participationRecordCurrentId := 3, clock := 2 }

/-- Store with the student's first request CLOSED and a later one OPEN. -/
def exTwoReqStore : Storage :=
  { exInit with
      participationRequests :=
        [exClosedReq,
         { id := 2, studentId := 2, courseId := 1, note := none,
           timestamp := 1, active := true }],
      participationRequestCurrentId := 3, clock := 2 }

/-- A live connection in OPEN transport state whose sends succeed. -/
def exConnOk : ClientConn :=
  { userId := some 2, readyState := ReadyState.opened, sendFails := false,
    sendAttempts := 0, inbox := [] }

/-- A live OPEN connection whose sends throw. -/
def exConnBroken : ClientConn :=
  { userId := some 2, readyState := ReadyState.opened, sendFails := true,
    sendAttempts := 0, inbox := [] }

/-- A half-closed connection (not OPEN). -/
def exConnClosed : ClientConn :=
  { userId := some 1, readyState := ReadyState.closed, sendFails := false,
    sendAttempts := 0, inbox := [] }

/-- C7: one broadcastToAll call attempts one send on every OPEN connection,
delivering the event exactly once to each OPEN connection whose send succeeds
(multi-tab connections of the same user included, since every tracked
connection is visited positionally); a non-OPEN connection is untouched; a
failing send is counted but swallowed, and each output connection depends only
on the corresponding input connection, so one failure never prevents delivery
to the rest, and the broadcast never fails the triggering operation. -/
theorem claim_c7_broadcast_fanout :
    ∀ (conns : List ClientConn) (e : WsEvent),
      (broadcastToAll conns e).length = conns.length
      ∧ (∀ i : Nat, (broadcastToAll conns e)[i]? =
            (conns[i]?).map (fun c => broadcastSendTo c e))
      ∧ (∀ c : ClientConn, c.readyState = ReadyState.opened → c.sendFails = false →
            broadcastSendTo c e =
              { c with sendAttempts := c.sendAttempts + 1, inbox := c.inbox ++ [e] })
      ∧ (∀ c : ClientConn, c.readyState ≠ ReadyState.opened →
            broadcastSendTo c e = c)
      ∧ (∀ c : ClientConn, c.readyState = ReadyState.opened → c.sendFails = true →
            broadcastSendTo c e = { c with sendAttempts := c.sendAttempts + 1 }) := by
  intro conns e
  refine ⟨?_, ?_, ?_, ?_, ?_⟩
  · simp [broadcastToAll]
  · intro i
    simp [broadcastToAll]
  · intro c hopen hok
    simp [broadcastSendTo, wsSend, hopen, hok]
  · intro c hnot
    simp [broadcastSendTo, hnot]
  · intro c hopen hfail
    simp [broadcastSendTo, wsSend, hopen, hfail]

/-- Witness for C7 at a concrete connection list: a broken OPEN connection in
the middle still lets the OPEN healthy connection receive the event once, and
the closed connection receives nothing. -/
theorem claim_c7_broadcast_fanout_witness :
    (broadcastToAll [exConnOk, exConnBroken, exConnClosed]
        (WsEvent.participationRequestDeactivated 1)).length = 3
    ∧ broadcastSendTo exConnOk (WsEvent.participationRequestDeactivated 1) =
        { exConnOk with sendAttempts := 1,
                        inbox := [WsEvent.participationRequestDeactivated 1] }
    ∧ broadcastSendTo exConnClosed (WsEvent.participationRequestDeactivated 1) =
        exConnClosed
    ∧ broadcastSendTo exConnBroken (WsEvent.participationRequestDeactivated 1) =
        { exConnBroken with sendAttempts := 1 } := by
  have h := claim_c7_broadcast_fanout [exConnOk, exConnBroken, exConnClosed]
    (WsEvent.participationRequestDeactivated 1)
  refine ⟨h.1, ?_, ?_, ?_⟩
  · have := h.2.2.1 exConnOk (by decide) (by decide)
    simpa [exConnOk] using this
  · exact h.2.2.2.1 exConnClosed (by decide)
  · have := h.2.2.2.2 exConnBroken (by decide) (by decide)
    simpa [exConnBroken] using this

/-- The attempt counter after n consecutive close events following a reset. -/
theorem failStreak_attempts (c : WsClient) :
    ∀ n : Nat, (failStreak (onOpenEvent c) n).reconnectAttempts = n := by
  intro n
  induction n with
  | zero => rfl
  | succ n ih => simp [failStreak, onCloseEvent, ih]

/-- C8: after the n-th consecutive failed connection since the last reset
(counting from n = 0), the close handler schedules the reconnect with delay
min(1000 * 1.5 ^ n, 30000) milliseconds, and a successful open resets the
attempt counter to zero. -/
theorem claim_c8_reconnect_backoff :
    ∀ (c : WsClient) (n : Nat),
      (onCloseEvent (failStreak (onOpenEvent c) n)).2 =
          min (1000 * (1.5 : ℚ) ^ n) 30000
      ∧ (onOpenEvent c).reconnectAttempts = 0 := by
  intro c n
  refine ⟨?_, rfl⟩
  simp [onCloseEvent, failStreak_attempts, INITIAL_RECONNECT_DELAY,
    MAX_RECONNECT_DELAY]

/-- A request whose active flag is already false is a fixed point of the
set-active-false update. -/
theorem request_eta_inactive (q : ParticipationRequest) (h : q.active = false) :
    { q with active := false } = q := by
  cases q
  simp_all

/-- Deactivation touches no field of the store but participationRequests. -/
theorem deactivate_frame (s : Storage) (rid : Nat) :
    (deactivateParticipationRequest s rid).1.users = s.users
    ∧ (deactivateParticipationRequest s rid).1.participationRecords =
        s.participationRecords
    ∧ (deactivateParticipationRequest s rid).1.userCurrentId = s.userCurrentId
    ∧ (deactivateParticipationRequest s rid).1.participationRequestCurrentId =
        s.participationRequestCurrentId
    ∧ (deactivateParticipationRequest s rid).1.participationRecordCurrentId =
        s.participationRecordCurrentId
    ∧ (deactivateParticipationRequest s rid).1.clock = s.clock := by
  unfold deactivateParticipationRequest
  cases hf : s.participationRequests.find? (fun r => r.id == rid) <;> simp

/-- After deactivation every stored request with the targeted id is inactive. -/
theorem deactivate_closes_target (s : Storage) (rid : Nat) :
    ∀ q ∈ (deactivateParticipationRequest s rid).1.participationRequests,
      q.id = rid → q.active = false := by
  unfold deactivateParticipationRequest
  cases hf : s.participationRequests.find? (fun r => r.id == rid) with
  | none =>
      intro q hq hid
      have := List.find?_eq_none.mp hf q hq
      simp [hid] at this
  | some r =>
      intro q hq hid
      simp only at hq
      obtain ⟨a, _, ha⟩ := List.mem_map.mp hq
      by_cases hcase : (a.id == rid) = true
      · rw [if_pos hcase] at ha
        rw [← ha]
      · rw [if_neg hcase] at ha
        rw [← ha] at hid
        simp [hid] at hcase

/-- If every stored request with the targeted id is already inactive, the
deactivation map is the identity on the request list. -/
theorem deactivate_map_id (l : List ParticipationRequest) (rid : Nat)
    (h : ∀ q ∈ l, q.id = rid → q.active = false) :
    l.map (fun q => if q.id == rid then { q with active := false } else q) = l := by
  induction l with
  | nil => rfl
  | cons q l ih =>
      simp only [List.map_cons]
      have hq : (if q.id == rid then { q with active := false } else q) = q := by
        by_cases hid : (q.id == rid) = true
        · have hact := h q (List.mem_cons_self q l) (by simpa using hid)
          simp [hid, request_eta_inactive q hact]
        · simp [hid]
      rw [hq, ih (fun a ha har => h a (List.mem_cons_of_mem q ha) har)]

/-- C2 counterexample: in the store where the student's request 1 is already
CLOSED, a further closeRequest call still emits a
participationRequestDeactivated broadcast event, so the claim's "no additional
broadcast beyond the first close's event" is false on the code. -/
theorem claim_c2_counterexample :
    (deleteParticipationRequest exClosedStore exStudent 1).2.1 =
        [WsEvent.participationRequestDeactivated 1]
    ∧ (deleteParticipationRequest exClosedStore exStudent 1).2.1 ≠ [] := by
  constructor
  · rfl
  · decide

/-- C2 amended: closing an already-CLOSED participation request succeeds as a
no-op on the store — it returns 200 with the current (CLOSED) state and leaves
the store exactly as the first close left it — but the handler still emits one
participationRequestDeactivated broadcast event on every close call, repeats
included. -/
theorem claim_c2_close_idempotent_state :
    ∀ (s : Storage) (u : User) (rid : Nat) (req : ParticipationRequest),
      getParticipationRequestById s rid = some req →
      req.active = false →
      (∀ q ∈ s.participationRequests, q.id = rid → q.active = false) →
      ¬(u.role = "student" ∧ req.studentId ≠ u.id) →
      deleteParticipationRequest s u rid =
        (s, [WsEvent.participationRequestDeactivated rid],
         HttpResult.ok 200 (some req)) := by
  intro s u rid req hf hact hall hauth
  unfold deleteParticipationRequest
  rw [hf]
  simp only [if_neg hauth]
  unfold deactivateParticipationRequest
  have hf' : s.participationRequests.find? (fun r => r.id == rid) = some req := hf
  rw [hf']
  simp only [deactivate_map_id s.participationRequests rid hall,
    request_eta_inactive req hact]

/-- Witness for the amended C2 at the concrete closed-request store. -/
theorem claim_c2_close_idempotent_state_witness :
    deleteParticipationRequest exClosedStore exStudent 1 =
      (exClosedStore, [WsEvent.participationRequestDeactivated 1],
       HttpResult.ok 200 (some exClosedReq)) :=
  claim_c2_close_idempotent_state exClosedStore exStudent 1 exClosedReq
    (by decide) (by decide) (by decide) (by decide)

/-- C9: closeRequest answers 404 when the id resolves to no request, 403 when a
student actor is not the owner, and succeeds (200, request deactivated, one
deactivation event) for an admin on any existing request; in both failure cases
the store is returned unchanged and the event list is empty. -/
theorem claim_c9_close_request_authorization :
    ∀ (s : Storage) (u : User) (rid : Nat),
      (getParticipationRequestById s rid = none →
        deleteParticipationRequest s u rid =
          (s, [], HttpResult.err 404 "Participation request not found"))
      ∧ (∀ req : ParticipationRequest,
          getParticipationRequestById s rid = some req →
          u.role = "student" → req.studentId ≠ u.id →
          deleteParticipationRequest s u rid =
            (s, [], HttpResult.err 403 "Not authorized to deactivate this request"))
      ∧ (∀ req : ParticipationRequest,
          getParticipationRequestById s rid = some req →
          u.role = "admin" →
          deleteParticipationRequest s u rid =
            ((deactivateParticipationRequest s rid).1,
             [WsEvent.participationRequestDeactivated rid],
             HttpResult.ok 200 (deactivateParticipationRequest s rid).2)
          ∧ ∀ q ∈ (deactivateParticipationRequest s rid).1.participationRequests,
              q.id = rid → q.active = false) := by
  intro s u rid
  refine ⟨?_, ?_, ?_⟩
  · intro hnone
    unfold deleteParticipationRequest
    rw [hnone]
  · intro req hsome hrole hown
    unfold deleteParticipationRequest
    rw [hsome]
    simp [hrole, hown]
  · intro req hsome hrole
    constructor
    · unfold deleteParticipationRequest
      rw [hsome]
      have : ¬(u.role = "student" ∧ req.studentId ≠ u.id) := by
        intro hcon
        rw [hrole] at hcon
        exact absurd hcon.1 (by decide)
      simp [this]
    · exact deactivate_closes_target s rid

/-- Witness for C9: all three branches at concrete stores — unknown id gives
404, the admin closes the student's open request with one event, and a foreign
student gets 403. -/
theorem claim_c9_close_request_authorization_witness :
    deleteParticipationRequest exInit exStudent 7 =
      (exInit, [], HttpResult.err 404 "Participation request not found")
    ∧ deleteParticipationRequest exOpenStore exAdmin 1 =
        ((deactivateParticipationRequest exOpenStore 1).1,
         [WsEvent.participationRequestDeactivated 1],
         HttpResult.ok 200 (deactivateParticipationRequest exOpenStore 1).2)
    ∧ deleteParticipationRequest exOpenStore
        { exStudent with id := 9 } 1 =
        (exOpenStore, [], HttpResult.err 403 "Not authorized to deactivate this request") := by
  refine ⟨?_, ?_, ?_⟩
  · exact (claim_c9_close_request_authorization exInit exStudent 7).1 (by decide)
  · exact ((claim_c9_close_request_authorization exOpenStore exAdmin 1).2.2 exOpenReq
      (by decide) (by decide)).1
  · exact (claim_c9_close_request_authorization exOpenStore { exStudent with id := 9 } 1).2.1
      exOpenReq (by decide) (by decide) (by decide)

/-- C10: deactivateParticipationRequest changes only the active flag of the
requests carrying the targeted id: users, records, counters and clock are
untouched, the request list keeps its length, every non-targeted request
survives unchanged, the targeted request survives with only active set to
false, and every surviving request keeps its id, studentId, courseId, note and
timestamp. -/
theorem claim_c10_deactivate_frame :
    ∀ (s : Storage) (rid : Nat),
      (deactivateParticipationRequest s rid).1.users = s.users
      ∧ (deactivateParticipationRequest s rid).1.participationRecords =
          s.participationRecords
      ∧ (deactivateParticipationRequest s rid).1.userCurrentId = s.userCurrentId
      ∧ (deactivateParticipationRequest s rid).1.participationRequestCurrentId =
          s.participationRequestCurrentId
      ∧ (deactivateParticipationRequest s rid).1.participationRecordCurrentId =
          s.participationRecordCurrentId
      ∧ (deactivateParticipationRequest s rid).1.clock = s.clock
      ∧ (deactivateParticipationRequest s rid).1.participationRequests.length =
          s.participationRequests.length
      ∧ (∀ q ∈ s.participationRequests, q.id ≠ rid →
          q ∈ (deactivateParticipationRequest s rid).1.participationRequests)
      ∧ (∀ q ∈ s.participationRequests, q.id = rid →
          { q with active := false } ∈
            (deactivateParticipationRequest s rid).1.participationRequests)
      ∧ (∀ q' ∈ (deactivateParticipationRequest s rid).1.participationRequests,
          ∃ q, q ∈ s.participationRequests ∧ q'.id = q.id
            ∧ q'.studentId = q.studentId ∧ q'.courseId = q.courseId
            ∧ q'.note = q.note ∧ q'.timestamp = q.timestamp) := by
  intro s rid
  obtain ⟨h1, h2, h3, h4, h5, h6⟩ := deactivate_frame s rid
  refine ⟨h1, h2, h3, h4, h5, h6, ?_, ?_, ?_, ?_⟩
  · unfold deactivateParticipationRequest
    cases hf : s.participationRequests.find? (fun r => r.id == rid) <;> simp
  · intro q hq hne
    unfold deactivateParticipationRequest
    cases hf : s.participationRequests.find? (fun r => r.id == rid) with
    | none => simpa using hq
    | some r =>
        simp only
        have : (if q.id == rid then { q with active := false } else q) = q := by
          simp [hne]
        rw [← this]
        exact List.mem_map_of_mem _ hq
  · intro q hq hid
    unfold deactivateParticipationRequest
    cases hf : s.participationRequests.find? (fun r => r.id == rid) with
    | none =>
        have := List.find?_eq_none.mp hf q hq
        simp [hid] at this
    | some r =>
        simp only
        have : (if q.id == rid then { q with active := false } else q) =
            { q with active := false } := by
          simp [hid]
        rw [← this]
        exact List.mem_map_of_mem _ hq
  · intro q' hq'
    unfold deactivateParticipationRequest at hq'
    cases hf : s.participationRequests.find? (fun r => r.id == rid) with
    | none =>
        rw [hf] at hq'
        simp only at hq'
        exact ⟨q', hq', rfl, rfl, rfl, rfl, rfl⟩
    | some r =>
        rw [hf] at hq'
        simp only at hq'
        obtain ⟨a, ha, hfa⟩ := List.mem_map.mp hq'
        by_cases hcase : (a.id == rid) = true
        · rw [if_pos hcase] at hfa
          exact ⟨a, ha, by rw [← hfa], by rw [← hfa], by rw [← hfa],
            by rw [← hfa], by rw [← hfa]⟩
        · rw [if_neg hcase] at hfa
          exact ⟨a, ha, by rw [← hfa], by rw [← hfa], by rw [← hfa],
            by rw [← hfa], by rw [← hfa]⟩

/-- Witness for C10 at the open-request store: closing request 1 leaves users
and records alone and keeps the closed twin of the request with all other
fields intact. -/
theorem claim_c10_deactivate_frame_witness :
    (deactivateParticipationRequest exOpenStore 1).1.users = exOpenStore.users
    ∧ { exOpenReq with active := false } ∈
        (deactivateParticipationRequest exOpenStore 1).1.participationRequests := by
  have h := claim_c10_deactivate_frame exOpenStore 1
  exact ⟨h.1, h.2.2.2.2.2.2.2.2.1 exOpenReq (by decide) (by decide)⟩

/-- Creating a record leaves the request table untouched. -/
theorem createRecord_requests (s : Storage) (sid : Nat) (p : Int)
    (fb nt : Option String) :
    (createParticipationRecord s sid p fb nt).1.participationRequests =
      s.participationRequests := rfl

/-- Request lookup is unaffected by a record creation. -/
theorem getRequest_createRecord (s : Storage) (sid : Nat) (p : Int)
    (fb nt : Option String) (rid : Nat) :
    getParticipationRequestById (createParticipationRecord s sid p fb nt).1 rid =
      getParticipationRequestById s rid := rfl

/-- The freshly created record is stored. -/
theorem createRecord_mem (s : Storage) (sid : Nat) (p : Int)
    (fb nt : Option String) :
    (createParticipationRecord s sid p fb nt).2 ∈
      (createParticipationRecord s sid p fb nt).1.participationRecords := by
  simp [createParticipationRecord]

/-- C3: awarding points with a linked request id on a valid student always
creates the record and answers 201; when the linked request is OPEN it is
deactivated in the same handler run and a participationRequestDeactivated
event accompanies the record event, and when the linked request is already
CLOSED the award still succeeds, the record is still stored, the request table
is untouched and only the record event is emitted (no error, no rollback). -/
theorem claim_c3_linked_close_semantics :
    ∀ (s : Storage) (u st : User) (sid : Nat) (p : ℚ) (fb nt : Option String)
      (rid : Nat) (req : ParticipationRequest),
      u.role = "admin" → pointsValid p →
      getUser s sid = some st → st.role = "student" →
      getParticipationRequestById s rid = some req →
      (req.active = true →
        (postParticipationRecord s u sid p fb nt (some rid)).2.2 =
            HttpResult.ok 201 (createParticipationRecord s sid p.num fb nt).2
        ∧ (createParticipationRecord s sid p.num fb nt).2 ∈
            (postParticipationRecord s u sid p fb nt (some rid)).1.participationRecords
        ∧ (∀ q ∈ (postParticipationRecord s u sid p fb nt (some rid)).1.participationRequests,
            q.id = rid → q.active = false)
        ∧ (postParticipationRecord s u sid p fb nt (some rid)).2.1 =
            [WsEvent.participationRequestDeactivated rid,
             WsEvent.participationRecordCreated
               (createParticipationRecord s sid p.num fb nt).2 st.id st.name st.username])
      ∧ (req.active = false →
        (postParticipationRecord s u sid p fb nt (some rid)).2.2 =
            HttpResult.ok 201 (createParticipationRecord s sid p.num fb nt).2
        ∧ (createParticipationRecord s sid p.num fb nt).2 ∈
            (postParticipationRecord s u sid p fb nt (some rid)).1.participationRecords
        ∧ (postParticipationRecord s u sid p fb nt (some rid)).1.participationRequests =
            s.participationRequests
        ∧ (postParticipationRecord s u sid p fb nt (some rid)).2.1 =
            [WsEvent.participationRecordCreated
               (createParticipationRecord s sid p.num fb nt).2 st.id st.name st.username]) := by
  intro s u st sid p fb nt rid req hadmin hval hgu hst hreq
  have hreq' : getParticipationRequestById
      (createParticipationRecord s sid p.num fb nt).1 rid = some req := by
    rw [getRequest_createRecord, hreq]
  constructor
  · intro hact
    have hrun : postParticipationRecord s u sid p fb nt (some rid) =
        ((deactivateParticipationRequest (createParticipationRecord s sid p.num fb nt).1 rid).1,
         [WsEvent.participationRequestDeactivated rid,
          WsEvent.participationRecordCreated
            (createParticipationRecord s sid p.num fb nt).2 st.id st.name st.username],
         HttpResult.ok 201 (createParticipationRecord s sid p.num fb nt).2) := by
      unfold postParticipationRecord
      rw [if_neg (by simp [hadmin]), if_neg (not_not_intro hval), hgu]
      simp only [if_neg (show ¬st.role ≠ "student" by simp [hst]), hreq',
        if_pos hact, List.singleton_append]
    refine ⟨by rw [hrun], ?_, ?_, by rw [hrun]⟩
    · rw [hrun]
      simp only
      rw [(deactivate_frame (createParticipationRecord s sid p.num fb nt).1 rid).2.1]
      exact createRecord_mem s sid p.num fb nt
    · rw [hrun]
      exact deactivate_closes_target (createParticipationRecord s sid p.num fb nt).1 rid
  · intro hact
    have hrun : postParticipationRecord s u sid p fb nt (some rid) =
        ((createParticipationRecord s sid p.num fb nt).1,
         [WsEvent.participationRecordCreated
            (createParticipationRecord s sid p.num fb nt).2 st.id st.name st.username],
         HttpResult.ok 201 (createParticipationRecord s sid p.num fb nt).2) := by
      unfold postParticipationRecord
      rw [if_neg (by simp [hadmin]), if_neg (not_not_intro hval), hgu]
      simp only [if_neg (show ¬st.role ≠ "student" by simp [hst]), hreq',
        if_neg (show ¬req.active = true by simp [hact]), List.nil_append]
    refine ⟨by rw [hrun], ?_, ?_, by rw [hrun]⟩
    · rw [hrun]
      exact createRecord_mem s sid p.num fb nt
    · rw [hrun]
      exact createRecord_requests s sid p.num fb nt

/-- Witness for C3: the admin awards 2 points linked to the student's open
request; a second award of 3 points linked to the now-closed request still
succeeds and leaves the request table alone. -/
theorem claim_c3_linked_close_semantics_witness :
    ((postParticipationRecord exOpenStore exAdmin 2 (2 : ℚ) none none (some 1)).2.2 =
        HttpResult.ok 201 (createParticipationRecord exOpenStore 2 2 none none).2
      ∧ (∀ q ∈ (postParticipationRecord exOpenStore exAdmin 2 (2 : ℚ) none none
            (some 1)).1.participationRequests, q.id = 1 → q.active = false))
    ∧ ((postParticipationRecord exClosedStore exAdmin 2 (3 : ℚ) none none (some 1)).2.2 =
        HttpResult.ok 201 (createParticipationRecord exClosedStore 2 3 none none).2
      ∧ (postParticipationRecord exClosedStore exAdmin 2 (3 : ℚ) none none
            (some 1)).1.participationRequests = exClosedStore.participationRequests) := by
  have hopen := claim_c3_linked_close_semantics exOpenStore exAdmin exStudent 2
    (2 : ℚ) none none 1 exOpenReq (by decide) (by decide) (by decide) (by decide)
    (by decide)
  have hclosed := claim_c3_linked_close_semantics exClosedStore exAdmin exStudent 2
    (3 : ℚ) none none 1 exClosedReq (by decide) (by decide) (by decide) (by decide)
    (by decide)
  have h1 := hopen.1 (by decide)
  have h2 := hclosed.2 (by decide)
  exact ⟨⟨h1.1, h1.2.2.1⟩, ⟨h2.1, h2.2.2.1⟩⟩

/-- C5 counterexample: the claim says negative points are rejected with 400
before any record is created, but awarding -5 points to the seeded student
succeeds with 201 and stores a record holding points = -5. -/
theorem claim_c5_counterexample :
    (postParticipationRecord exInit exAdmin 2 (-5 : ℚ) none none none).2.2 =
        HttpResult.ok 201
          { id := 1, studentId := 2, courseId := 1, points := -5,
            feedback := none, note := none, timestamp := 0, hidden := false }
    ∧ (postParticipationRecord exInit exAdmin 2 (-5 : ℚ) none none
          none).1.participationRecords ≠ exInit.participationRecords := by
  constructor
  · rfl
  · decide

/-- C5 amended: awardPoints enforces no non-negativity: any negative integer
points value within the INTEGER column range passes validation — the record is
created holding exactly those negative points and the call answers 201.
(Where an invalid points value is rejected is version-dependent — newer
drizzle-zod answers 400, otherwise the INTEGER column errors into the 500
branch — so nothing beyond the accept side is claimed.) -/
theorem claim_c5_points_validation :
    ∀ (s : Storage) (u : User) (sid : Nat) (p : ℚ) (fb nt : Option String)
      (rid : Option Nat) (st : User),
      u.role = "admin" → pointsValid p → p.num < 0 →
      getUser s sid = some st → st.role = "student" →
      (postParticipationRecord s u sid p fb nt rid).2.2 =
          HttpResult.ok 201 (createParticipationRecord s sid p.num fb nt).2
      ∧ (createParticipationRecord s sid p.num fb nt).2 ∈
          (postParticipationRecord s u sid p fb nt rid).1.participationRecords
      ∧ (createParticipationRecord s sid p.num fb nt).2.points = p.num := by
  intro s u sid p fb nt rid st hadmin hval _hneg hgu hst
  have hbody : (postParticipationRecord s u sid p fb nt rid).2.2 =
          HttpResult.ok 201 (createParticipationRecord s sid p.num fb nt).2
        ∧ (postParticipationRecord s u sid p fb nt rid).1.participationRecords =
          (createParticipationRecord s sid p.num fb nt).1.participationRecords := by
      unfold postParticipationRecord
      rw [if_neg (by simp [hadmin]), if_neg (not_not_intro hval), hgu]
      simp only [if_neg (show ¬st.role ≠ "student" by simp [hst])]
      cases rid with
      | none => exact ⟨by trivial, by trivial⟩
      | some r =>
          simp only
          cases hr : getParticipationRequestById
              (createParticipationRecord s sid p.num fb nt).1 r with
          | none => exact ⟨by trivial, by trivial⟩
          | some request =>
              by_cases hra : request.active = true
              · refine ⟨by simp [hra], ?_⟩
                simp only [hra, if_true]
                exact (deactivate_frame
                  (createParticipationRecord s sid p.num fb nt).1 r).2.1
              · simp only [if_neg hra]
                exact ⟨by trivial, by trivial⟩
  refine ⟨hbody.1, ?_, rfl⟩
  rw [hbody.2]
  exact createRecord_mem s sid p.num fb nt

/-- Witness for the amended C5: -5 points pass validation and are stored for
the seeded student with 201. -/
theorem claim_c5_points_validation_witness :
    (postParticipationRecord exInit exAdmin 2 (-5 : ℚ) none none none).2.2 =
        HttpResult.ok 201 (createParticipationRecord exInit 2 (-5) none none).2
    ∧ (createParticipationRecord exInit 2 (-5) none none).2 ∈
        (postParticipationRecord exInit exAdmin 2 (-5 : ℚ) none none
          none).1.participationRecords := by
  have h := claim_c5_points_validation exInit exAdmin 2 (-5 : ℚ) none none
    none exStudent (by decide) (by decide) (by decide) (by decide) (by decide)
  exact ⟨h.1, h.2.1⟩

/-- The running-sum fold of the storage layer equals the sum of the points. -/
theorem foldl_points (l : List ParticipationRecord) (a : Int) :
    l.foldl (fun sum r => sum + r.points) a = a + (l.map (fun r => r.points)).sum := by
  induction l generalizing a with
  | nil => simp
  | cons r l ih =>
      simp only [List.foldl_cons, List.map_cons, List.sum_cons, ih]
      omega

/-- A record-wise rewrite that keeps studentId and points also keeps each
student's filtered points list. -/
theorem filter_points_congr (g : ParticipationRecord → ParticipationRecord)
    (hsid : ∀ r, (g r).studentId = r.studentId)
    (hpts : ∀ r, (g r).points = r.points) (sid : Nat) :
    ∀ l : List ParticipationRecord,
      ((l.map g).filter (fun r => r.studentId == sid)).map (fun r => r.points) =
        (l.filter (fun r => r.studentId == sid)).map (fun r => r.points) := by
  intro l
  induction l with
  | nil => rfl
  | cons r l ih =>
      simp only [List.map_cons, List.filter_cons, hsid r]
      by_cases hs : (r.studentId == sid) = true
      · simp [hs, hpts r, ih]
      · simp [hs, ih]

/-- Every row of the per-student read projection carries no hidden field. -/
theorem byStudent_hidden_none (s : Storage) (sid : Nat) :
    ∀ r ∈ getParticipationRecordsByStudent s sid, r.hidden = none := by
  intro r hr
  unfold getParticipationRecordsByStudent at hr
  obtain ⟨a, _, ha⟩ := List.mem_map.mp hr
  rw [← ha]
  rfl

/-- Every row of the all-records read projection carries no hidden field. -/
theorem allRecords_hidden_none (s : Storage) :
    ∀ p ∈ getAllParticipationRecords s, p.1.hidden = none := by
  intro p hp
  unfold getAllParticipationRecords at hp
  obtain ⟨a, _, ha⟩ := List.mem_filterMap.mp hp
  cases hg : getUser s a.studentId with
  | none => rw [hg] at ha; simp at ha
  | some u =>
      rw [hg] at ha
      have hpair : (projectRecordRow a, u) = p := by simpa using ha
      rw [← hpair]
      rfl

/-- On rows without a hidden field the route filter keeps everything. -/
theorem view_filter_vacuous (l : List ParticipationRecordRow)
    (h : ∀ r ∈ l, r.hidden = none) :
    l.filter (fun r => !(r.hidden.getD false)) = l := by
  apply List.filter_eq_self.mpr
  intro r hr
  rw [h r hr]
  rfl

/-- C4 counterexample: in the store holding a record whose hidden flag is set,
the default (showHidden absent) displayed list still contains that record — the
storage read projection drops the hidden column, so the route filter is a
no-op and the claim's "the displayed record list filters hidden records out by
default" is false on the code. -/
theorem claim_c4_counterexample :
    exHiddenRecord.hidden = true
    ∧ exHiddenRecord ∈ exRecordsStore.participationRecords
    ∧ projectRecordRow exHiddenRecord ∈
        participationRecordsView exRecordsStore exStudent false := by
  refine ⟨rfl, by decide, by decide⟩

/-- C4 amended: totalPoints sums the points of all of the student's records,
hidden ones included — it is 0 with no records and invariant under hiding or
unhiding any record. The displayed record list, however, does not filter
hidden records out: the storage read projections omit the hidden column, so
the route's hidden filter is a no-op — the view is the same with and without
showHidden, the default view for a student lists every one of their records
(hidden ones included) and the total equals the sum over that default view. -/
theorem claim_c4_total_points_ignores_hidden :
    ∀ (s : Storage) (u : User) (id : Nat) (b : Bool),
      (s.participationRecords.filter (fun r => r.studentId == u.id) = [] →
        getTotalParticipationPointsByStudent s u.id = 0)
      ∧ getTotalParticipationPointsByStudent (setRecordHidden s id b) u.id =
          getTotalParticipationPointsByStudent s u.id
      ∧ participationRecordsView s u false = participationRecordsView s u true
      ∧ (u.role ≠ "admin" →
          participationRecordsView s u false =
            getParticipationRecordsByStudent s u.id
          ∧ getTotalParticipationPointsByStudent s u.id =
              ((participationRecordsView s u false).map (fun r => r.points)).sum
          ∧ (∀ r ∈ s.participationRecords, r.studentId = u.id →
              projectRecordRow r ∈ participationRecordsView s u false)) := by
  intro s u id b
  have hviewStudent : u.role ≠ "admin" →
      participationRecordsView s u false =
        getParticipationRecordsByStudent s u.id := by
    intro hrole
    unfold participationRecordsView
    rw [if_neg hrole]
    show (getParticipationRecordsByStudent s u.id).filter
        (fun r => !(r.hidden.getD false)) = _
    exact view_filter_vacuous _ (byStudent_hidden_none s u.id)
  refine ⟨?_, ?_, ?_, ?_⟩
  · intro hempty
    unfold getTotalParticipationPointsByStudent
    rw [hempty]
    rfl
  · unfold getTotalParticipationPointsByStudent setRecordHidden
    simp only
    rw [foldl_points, foldl_points]
    have hg1 : ∀ r : ParticipationRecord,
        ((if r.id == id then { r with hidden := b } else r) :
            ParticipationRecord).studentId = r.studentId := by
      intro r
      by_cases h : (r.id == id) = true <;> simp [h]
    have hg2 : ∀ r : ParticipationRecord,
        ((if r.id == id then { r with hidden := b } else r) :
            ParticipationRecord).points = r.points := by
      intro r
      by_cases h : (r.id == id) = true <;> simp [h]
    rw [filter_points_congr _ hg1 hg2 u.id s.participationRecords]
  · unfold participationRecordsView
    by_cases hrole : u.role = "admin"
    · rw [if_pos hrole, if_pos hrole]
      show ((getAllParticipationRecords s).map Prod.fst).filter
          (fun r => !(r.hidden.getD false)) = (getAllParticipationRecords s).map Prod.fst
      apply view_filter_vacuous
      intro r hr
      obtain ⟨q, hq, hq'⟩ := List.mem_map.mp hr
      rw [← hq']
      exact allRecords_hidden_none s q hq
    · rw [if_neg hrole, if_neg hrole]
      show (getParticipationRecordsByStudent s u.id).filter
          (fun r => !(r.hidden.getD false)) = getParticipationRecordsByStudent s u.id
      exact view_filter_vacuous _ (byStudent_hidden_none s u.id)
  · intro hrole
    have hview := hviewStudent hrole
    refine ⟨hview, ?_, ?_⟩
    · rw [hview]
      unfold getTotalParticipationPointsByStudent getParticipationRecordsByStudent
      rw [foldl_points, Int.zero_add, List.map_map]
      have hcomp : ((fun r : ParticipationRecordRow => r.points) ∘ projectRecordRow)
          = (fun r : ParticipationRecord => r.points) := rfl
      rw [hcomp]
      exact (((List.perm_insertionSort recDescLE
        (s.participationRecords.filter (fun r => r.studentId == u.id))).map
          (fun r => r.points)).sum_eq).symm
    · intro r hrmem hrsid
      rw [hview]
      unfold getParticipationRecordsByStudent
      apply List.mem_map_of_mem
      apply (List.perm_insertionSort recDescLE _).mem_iff.mpr
      exact List.mem_filter.mpr ⟨hrmem, by simp [hrsid]⟩

/-- Witness for the amended C4 at a store holding one shown and one hidden
record for the student: the total counts both and equals the sum over the
default view, hiding record 1 changes nothing, and the empty store totals 0. -/
theorem claim_c4_total_points_ignores_hidden_witness :
    getTotalParticipationPointsByStudent
        (setRecordHidden exRecordsStore 1 true) 2 =
      getTotalParticipationPointsByStudent exRecordsStore 2
    ∧ getTotalParticipationPointsByStudent exRecordsStore 2 =
        ((participationRecordsView exRecordsStore exStudent false).map
            (fun r => r.points)).sum
    ∧ getTotalParticipationPointsByStudent exInit 2 = 0 := by
  have h := claim_c4_total_points_ignores_hidden exRecordsStore exStudent 1 true
  have h0 := claim_c4_total_points_ignores_hidden exInit exStudent 1 true
  exact ⟨h.2.1, (h.2.2.2 (by decide)).2.1, h0.1 (by decide)⟩

/-- Projecting the joined rows back to requests yields the requests whose
student resolves. -/
theorem mapFst_filterMap_join (s : Storage) (l : List ParticipationRequest) :
    (l.filterMap (fun r => (getUser s r.studentId).map (fun u => (r, u)))).map
        Prod.fst =
      l.filter (fun r => (getUser s r.studentId).isSome) := by
  induction l with
  | nil => rfl
  | cons r l ih =>
      cases hg : getUser s r.studentId with
      | none => simp [List.filterMap_cons, hg, ih, List.filter_cons]
      | some u => simp [List.filterMap_cons, hg, ih, List.filter_cons]

/-- C6: under referential integrity (every request's studentId resolves to a
stored user — guaranteed in practice since requests are created for session
users), listOpenRequests returns exactly the OPEN requests — a permutation of
the active filter of the request table — sorted ascending by timestamp, and
every returned row is active (no CLOSED request appears). -/
theorem claim_c6_list_open_requests :
    ∀ s : Storage,
      (∀ r ∈ s.participationRequests, ∃ u ∈ s.users, u.id = r.studentId) →
      ((getActiveParticipationRequests s).map Prod.fst).Perm
          (s.participationRequests.filter (fun r => r.active))
      ∧ List.Sorted reqLE ((getActiveParticipationRequests s).map Prod.fst)
      ∧ (∀ p ∈ getActiveParticipationRequests s, p.1.active = true) := by
  intro s href
  have hfull : ∀ r ∈ List.insertionSort reqLE
      (s.participationRequests.filter (fun r => r.active)),
      (getUser s r.studentId).isSome := by
    intro r hr
    have hr' : r ∈ s.participationRequests.filter (fun r => r.active) :=
      (List.perm_insertionSort reqLE _).mem_iff.mp hr
    have hrs : r ∈ s.participationRequests := (List.mem_filter.mp hr').1
    obtain ⟨u, hu, hid⟩ := href r hrs
    unfold getUser
    rw [List.find?_isSome]
    exact ⟨u, hu, by simp [hid]⟩
  have hmap : (getActiveParticipationRequests s).map Prod.fst =
      List.insertionSort reqLE
        (s.participationRequests.filter (fun r => r.active)) := by
    unfold getActiveParticipationRequests
    rw [mapFst_filterMap_join]
    exact List.filter_eq_self.mpr hfull
  refine ⟨?_, ?_, ?_⟩
  · rw [hmap]
    exact List.perm_insertionSort reqLE _
  · rw [hmap]
    exact List.sorted_insertionSort reqLE _
  · intro p hp
    unfold getActiveParticipationRequests at hp
    obtain ⟨r, hrmem, hfr⟩ := List.mem_filterMap.mp hp
    have hr' : r ∈ s.participationRequests.filter (fun r => r.active) :=
      (List.perm_insertionSort reqLE _).mem_iff.mp hrmem
    have hact : r.active = true := (List.mem_filter.mp hr').2
    cases hg : getUser s r.studentId with
    | none => rw [hg] at hfr; simp at hfr
    | some u =>
        rw [hg] at hfr
        have hpair : (r, u) = p := by simpa using hfr
        rw [← hpair]
        exact hact

/-- Witness for C6 at a store whose two requests (one CLOSED, one OPEN, the
open one raised later) both resolve to the seeded student: exactly the open
request comes back. -/
theorem claim_c6_list_open_requests_witness :
    ((getActiveParticipationRequests exTwoReqStore).map Prod.fst).Perm
        (exTwoReqStore.participationRequests.filter (fun r => r.active))
    ∧ (∀ p ∈ getActiveParticipationRequests exTwoReqStore, p.1.active = true) := by
  have h := claim_c6_list_open_requests exTwoReqStore (by decide)
  exact ⟨h.1, h.2.2⟩

/-- Mapping a function that never makes the predicate true cannot grow the
filtered length. -/
theorem filter_length_le_of_imp {α : Type} (f : α → α) (p : α → Bool)
    (h : ∀ a, p (f a) = true → p a = true) :
    ∀ l : List α, ((l.map f).filter p).length ≤ (l.filter p).length := by
  intro l
  induction l with
  | nil => simp
  | cons a l ih =>
      simp only [List.map_cons, List.filter_cons]
      by_cases hfa : p (f a) = true
      · have hpa := h a hfa
        rw [if_pos hfa, if_pos hpa]
        simp only [List.length_cons]
        omega
      · by_cases hpa : p a = true
        · rw [if_neg hfa, if_pos hpa]
          simp only [List.length_cons]
          omega
        · rw [if_neg hfa, if_neg hpa]
          exact ih

/-- Deactivation never increases any student's open-request count. -/
theorem countOpen_deactivate_le (s : Storage) (rid sid : Nat) :
    countOpen (deactivateParticipationRequest s rid).1 sid ≤ countOpen s sid := by
  unfold countOpen deactivateParticipationRequest
  cases hf : s.participationRequests.find? (fun r => r.id == rid) with
  | none => simp
  | some r =>
      simp only
      apply filter_length_le_of_imp
      intro a ha
      by_cases hid : (a.id == rid) = true
      · rw [if_pos hid] at ha
        simp at ha
      · rwa [if_neg hid] at ha

/-- If a stored user has an OPEN request, the duplicate check of the open
handler fires: the joined active list contains a row whose student id matches. -/
theorem anyCheck_true_of_open (s : Storage) (u : User) (hu : u ∈ s.users)
    (r : ParticipationRequest) (hr : r ∈ s.participationRequests)
    (hact : r.active = true) (hsid : r.studentId = u.id) :
    ((getActiveParticipationRequests s).any (fun p => p.2.id == u.id)) = true := by
  unfold getActiveParticipationRequests
  rw [List.any_eq_true]
  have hmem : r ∈ List.insertionSort reqLE
      (s.participationRequests.filter (fun q => q.active)) :=
    (List.perm_insertionSort reqLE _).mem_iff.mpr
      (List.mem_filter.mpr ⟨hr, hact⟩)
  have hsome : (s.users.find? (fun x => x.id == r.studentId)).isSome := by
    rw [List.find?_isSome]
    exact ⟨u, hu, by simp [hsid]⟩
  obtain ⟨v, hv⟩ := Option.isSome_iff_exists.mp hsome
  have hv' : getUser s r.studentId = some v := hv
  refine ⟨(r, v), List.mem_filterMap.mpr ⟨r, hmem, by rw [hv']; rfl⟩, ?_⟩
  have hvid : v.id = r.studentId := by simpa using List.find?_some hv
  simp [hvid, hsid]

/-- If the duplicate check does not fire for a stored user, that user has no
OPEN request at all. -/
theorem countOpen_eq_zero_of_check_false (s : Storage) (u : User)
    (hu : u ∈ s.users)
    (h : ((getActiveParticipationRequests s).any (fun p => p.2.id == u.id)) = false) :
    countOpen s u.id = 0 := by
  by_contra hne
  have hpos : 0 < countOpen s u.id := Nat.pos_of_ne_zero hne
  unfold countOpen at hpos
  obtain ⟨r, hrmem⟩ := List.exists_mem_of_length_pos hpos
  obtain ⟨hrs, hp⟩ := List.mem_filter.mp hrmem
  have hact : r.active = true := by
    cases hra : r.active
    · rw [hra] at hp; simp at hp
    · rfl
  have hsid : r.studentId = u.id := by
    rw [hact] at hp
    simpa using hp
  have := anyCheck_true_of_open s u hu r hrs hact hsid
  rw [h] at this
  exact Bool.false_ne_true this

/-- Count after inserting the fresh OPEN request of the opening student. -/
theorem countOpen_createRequest (s : Storage) (uid : Nat) (note : Option String)
    (sid : Nat) :
    countOpen (createParticipationRequest s uid note).1 sid =
      countOpen s sid + (if (uid == sid) = true then 1 else 0) := by
  unfold countOpen createParticipationRequest
  simp only [List.filter_append, List.length_append]
  by_cases h : (uid == sid) = true
  · simp [List.filter_cons, h]
  · simp [List.filter_cons, h]

/-- The open handler preserves the at-most-one-open invariant. -/
theorem invariant_preserved_open (s : Storage) (u : User) (note : Option String)
    (hu : u ∈ s.users) (hinv : openRequestInvariant s) :
    openRequestInvariant (postParticipationRequest s u note).1 := by
  unfold postParticipationRequest
  by_cases hrole : u.role = "student"
  · rw [if_neg (by simp [hrole])]
    cases hchk : (getActiveParticipationRequests s).any (fun p => p.2.id == u.id) with
    | true => simp only [hchk, if_true]; exact hinv
    | false =>
        simp only [hchk, Bool.false_eq_true, if_false]
        intro sid
        rw [countOpen_createRequest]
        by_cases hs : (u.id == sid) = true
        · have hzero : countOpen s u.id = 0 :=
            countOpen_eq_zero_of_check_false s u hu hchk
          have : sid = u.id := by
            have := (beq_iff_eq.mp hs)
            omega
          rw [this, hzero]
          simp [hs]
        · simp only [hs, Bool.false_eq_true, if_false, Nat.add_zero]
          exact hinv sid
  · rw [if_pos (by simp [hrole])]
    exact hinv

/-- The close handler preserves the at-most-one-open invariant. -/
theorem invariant_preserved_close (s : Storage) (u : User) (rid : Nat)
    (hinv : openRequestInvariant s) :
    openRequestInvariant (deleteParticipationRequest s u rid).1 := by
  unfold deleteParticipationRequest
  cases hf : getParticipationRequestById s rid with
  | none => exact hinv
  | some request =>
      by_cases hauth : u.role = "student" ∧ request.studentId ≠ u.id
      · simp only [if_pos hauth]
        exact hinv
      · simp only [if_neg hauth]
        intro sid
        exact Nat.le_trans (countOpen_deactivate_le s rid sid) (hinv sid)

/-- The award handler preserves the at-most-one-open invariant. -/
theorem invariant_preserved_award (s : Storage) (u : User) (studentId : Nat)
    (points : ℚ) (feedback note : Option String) (requestId : Option Nat)
    (hinv : openRequestInvariant s) :
    openRequestInvariant
      (postParticipationRecord s u studentId points feedback note requestId).1 := by
  have hcreate : ∀ sid, countOpen
      (createParticipationRecord s studentId points.num feedback note).1 sid =
      countOpen s sid := by
    intro sid
    unfold countOpen
    rw [createRecord_requests]
  unfold postParticipationRecord
  by_cases h1 : u.role = "admin"
  · rw [if_neg (by simp [h1])]
    by_cases h2 : pointsValid points
    · rw [if_neg (not_not_intro h2)]
      cases hgu : getUser s studentId with
      | none => exact hinv
      | some student =>
          simp only
          by_cases h3 : student.role = "student"
          · rw [if_neg (by simp [h3])]
            cases requestId with
            | none =>
                simp only
                intro sid
                rw [hcreate sid]
                exact hinv sid
            | some rid =>
                simp only
                cases hreq : getParticipationRequestById
                    (createParticipationRecord s studentId points.num feedback
                      note).1 rid with
                | none =>
                    intro sid
                    rw [hcreate sid]
                    exact hinv sid
                | some request =>
                    by_cases hra : request.active = true
                    · simp only [if_pos hra]
                      intro sid
                      refine Nat.le_trans (countOpen_deactivate_le _ rid sid) ?_
                      rw [hcreate sid]
                      exact hinv sid
                    · simp only [if_neg hra]
                      intro sid
                      rw [hcreate sid]
                      exact hinv sid
          · rw [if_pos (by simp [h3])]
            exact hinv
    · rw [if_pos h2]
      exact hinv
  · rw [if_pos (by simp [h1])]
    exact hinv

/-- C1: the at-most-one-OPEN-request-per-student invariant holds in every
state reachable through the three write handlers from any state satisfying it,
and whenever a stored student already has an OPEN request, openRequest answers
400 with the duplicate message, broadcasts nothing and leaves the store
unchanged — no new request is created. -/
theorem claim_c1_single_open_request :
    (∀ s₀ s : Storage, openRequestInvariant s₀ → Reaches s₀ s →
      openRequestInvariant s)
    ∧ (∀ (s : Storage) (u : User) (note : Option String),
        u ∈ s.users → u.role = "student" → 0 < countOpen s u.id →
        postParticipationRequest s u note =
          (s, [], HttpResult.err 400
            "You already have an active participation request")) := by
  constructor
  · intro s₀ s h0 hre
    induction hre with
    | refl => exact h0
    | openStep s u note _hre hu ih => exact invariant_preserved_open s u note hu ih
    | closeStep s u rid _hre _hu ih => exact invariant_preserved_close s u rid ih
    | awardStep s u sid p fb nt rid _hre _hu ih =>
        exact invariant_preserved_award s u sid p fb nt rid ih
  · intro s u note hu hrole hpos
    unfold countOpen at hpos
    obtain ⟨r, hrmem⟩ := List.exists_mem_of_length_pos hpos
    obtain ⟨hrs, hp⟩ := List.mem_filter.mp hrmem
    have hact : r.active = true := by
      cases hra : r.active
      · rw [hra] at hp; simp at hp
      · rfl
    have hsid : r.studentId = u.id := by
      rw [hact] at hp
      simpa using hp
    have hchk := anyCheck_true_of_open s u hu r hrs hact hsid
    unfold postParticipationRequest
    rw [if_neg (by simp [hrole]), if_pos hchk]

/-- Witness for C1: the empty seeded store satisfies the invariant, so the
store reached by the student raising a hand does too; there, a second raise by
the same student is rejected with 400 and the store is unchanged. -/
theorem claim_c1_single_open_request_witness :
    openRequestInvariant (postParticipationRequest exInit exStudent none).1
    ∧ postParticipationRequest exOpenStore exStudent none =
        (exOpenStore, [], HttpResult.err 400
          "You already have an active participation request") := by
  constructor
  · exact claim_c1_single_open_request.1 exInit
      (postParticipationRequest exInit exStudent none).1
      (fun sid => by simp [countOpen, exInit])
      (Reaches.openStep exInit exStudent none Reaches.refl (by decide))
  · exact claim_c1_single_open_request.2 exOpenStore exStudent none (by decide)
      (by decide) (by decide)

end ClassParticipate
